import Mathlib

/-!
Shallow embedding of the MCP demo repository (files `mcp_tools.py` and
`mcp_demo.py`): the weather tool, the preference/conversation memory store,
the tool dispatcher, and the conversation orchestrator, together with
theorems settling the specification claims.

Modelling conventions:
* Python dicts holding JSON data are modelled by the inductive `Json` below;
  Python dict key order is preserved, so JSON objects are ordered association
  lists.
* The weather HTTP calls are modelled by oracle functions passed as
  parameters (`geocode`, `forecast`); `get_weather` additionally returns the
  number of forecast-oracle invocations it performed, so that "performs no
  forecast call" is a statement about the embedding.
* Numeric latitude/longitude and weather readings are modelled as `Int`
  (the Python floats are only passed through and formatted, never computed
  with).
* `datetime.now()` is modelled by a `now : String` parameter.
* File persistence (`_load_memory` / `_save_memory`) only round-trips the
  in-memory state and is modelled by letting the initial `MemoryState` be
  arbitrary; mutation functions return the new state explicitly.
-/

namespace MCP

/-- JSON values, as produced by the Python code. Objects are ordered
association lists, matching Python dict insertion order. -/
inductive Json where
  | null : Json
  | str : String → Json
  | num : Int → Json
  | arr : List Json → Json
  | obj : List (String × Json) → Json
deriving Repr

/-- Whether a JSON object carries the given top-level key. -/
def Json.hasKey : Json → String → Bool
  | .obj fields, k => fields.any (fun kv => kv.1 = k)
  | _, _ => false

/-! ## Weather tool (`mcp_tools.py`, class `WeatherMCP`) -/

/-- One geocoding result record (`geo_data["results"][i]`). The `country`
field is optional in the upstream payload (`location.get("country", "")`). -/
structure Location where
  name : String
  country : Option String
  latitude : Int
  longitude : Int
deriving Repr, DecidableEq

/-- The `current_weather` block of the forecast response. -/
structure CurrentWeather where
  temperature : Int
  windspeed : Int
  winddirection : Int
  weathercode : Int
deriving Repr, DecidableEq

/-- The fixed weather-code table of `WeatherMCP._get_weather_description`. -/
def weather_codes : List (Int × String) :=
  [(0, "Clear sky"), (1, "Mainly clear"), (2, "Partly cloudy"), (3, "Overcast"),
   (45, "Foggy"), (48, "Depositing rime fog"), (51, "Light drizzle"),
   (53, "Moderate drizzle"), (55, "Dense drizzle"), (61, "Slight rain"),
   (63, "Moderate rain"), (65, "Heavy rain"), (80, "Slight rain showers"),
   (81, "Moderate rain showers"), (82, "Violent rain showers"),
   (95, "Thunderstorm"), (96, "Thunderstorm with slight hail"),
   (99, "Thunderstorm with heavy hail")]

/-- `WeatherMCP._get_weather_description`: table lookup with default
`"Unknown conditions"`. -/
def get_weather_description (code : Int) : String :=
  (weather_codes.lookup code).getD "Unknown conditions"

/-- `WeatherMCP.get_weather`. The geocoding request (`count = 1` best-match
list) is the oracle `geocode`, the forecast request is the oracle `forecast`
(`none` models an absent/empty `current_weather` block). The second
component of the result counts how many times the forecast oracle was
invoked. The `country` argument is accepted and unused, as in the source. -/
def get_weather (geocode : String → List Location)
    (forecast : Int → Int → Option CurrentWeather)
    (city : String) (country : String) : Json × Nat :=
  match geocode city with
  | [] => (Json.obj [("error", Json.str ("City \x27" ++ city ++ "\x27 not found"))], 0)
  | location :: _ =>
    let lat := location.latitude
    let lon := location.longitude
    match forecast lat lon with
    | none => (Json.obj [("error", Json.str "Weather data unavailable")], 1)
    | some current =>
      (Json.obj
        [("city", Json.str location.name),
         ("country", Json.str (location.country.getD "")),
         ("temperature", Json.str (toString current.temperature ++ "°C")),
         ("wind_speed", Json.str (toString current.windspeed ++ " km/h")),
         ("wind_direction", Json.str (toString current.winddirection ++ "°")),
         ("conditions", Json.str (get_weather_description current.weathercode)),
         ("coordinates", Json.str (toString lat ++ ", " ++ toString lon))], 1)

/-! ## Memory store (`mcp_tools.py`, class `MemoryMCP`) -/

/-- One stored conversation record. -/
structure Conversation where
  topic : String
  summary : String
  timestamp : String
deriving Repr, DecidableEq

/-- The in-memory document `self.memory`: `preferences` is a string-keyed
insertion-ordered mapping to lists of preference strings, `conversations`
an append-only log. A missing top-level key is modelled by the empty
list. -/
@[ext]
structure MemoryState where
  preferences : List (String × List String)
  conversations : List Conversation
deriving Repr, DecidableEq

/-- First-match lookup in an insertion-ordered association list
(Python `d[k]` / `d.get(k)`). -/
def alistLookup (m : List (String × List String)) (k : String) :
    Option (List String) :=
  match m with
  | [] => none
  | (k₀, v₀) :: rest => if k₀ = k then some v₀ else alistLookup rest k

/-- Update-or-append in an insertion-ordered association list
(Python `d[k] = v`): an existing key keeps its position, a new key is
appended at the end. -/
def alistSet (m : List (String × List String)) (k : String)
    (v : List String) : List (String × List String) :=
  match m with
  | [] => [(k, v)]
  | (k₀, v₀) :: rest =>
    if k₀ = k then (k, v) :: rest else (k₀, v₀) :: alistSet rest k v

/-- The list stored for `category`, defaulting to `[]` for an unknown key. -/
def prefListOf (s : MemoryState) (category : String) : List String :=
  (alistLookup s.preferences category).getD []

/-- `MemoryMCP.store_preference`: ensure the category key exists, append the
preference only if not already present (case-sensitive exact match), persist,
and return the status payload. -/
def store_preference (s : MemoryState) (category preference : String) :
    MemoryState × Json :=
  let cur := prefListOf s category
  let cur₂ := if preference ∈ cur then cur else cur ++ [preference]
  ({ s with preferences := alistSet s.preferences category cur₂ },
   Json.obj [("status", Json.str "stored"), ("category", Json.str category),
             ("preference", Json.str preference)])

/-- The full preferences mapping rendered as JSON. -/
def preferencesJson (s : MemoryState) : Json :=
  Json.obj (s.preferences.map (fun kv => (kv.1, Json.arr (kv.2.map Json.str))))

/-- `MemoryMCP.get_preferences`. Python's `if category:` treats both `None`
and the empty string as falsy. -/
def get_preferences (s : MemoryState) (category : Option String) : Json :=
  match category with
  | some c =>
    if c ≠ "" then
      Json.obj [(c, Json.arr ((prefListOf s c).map Json.str))]
    else preferencesJson s
  | none => preferencesJson s

/-- `MemoryMCP.store_conversation`: append a timestamped record, persist,
return the status payload. `now` models `datetime.datetime.now().isoformat()`. -/
def store_conversation (s : MemoryState) (topic summary now : String) :
    MemoryState × Json :=
  ({ s with conversations := s.conversations ++ [⟨topic, summary, now⟩] },
   Json.obj [("status", Json.str "stored"), ("topic", Json.str topic)])

/-- Python `topic.lower() in c["topic"].lower()`: case-insensitive substring
test, via character-list containment. -/
def topicMatches (topic : String) (c : Conversation) : Bool :=
  decide (topic.toLower.data <:+: c.topic.toLower.data)

/-- A conversation record rendered as JSON. -/
def conversationJson (c : Conversation) : Json :=
  Json.obj [("topic", Json.str c.topic), ("summary", Json.str c.summary),
            ("timestamp", Json.str c.timestamp)]

/-- Python `conversations[-5:]`: the last five records (all of them when
there are fewer than five), in original order. -/
def lastFive (s : MemoryState) : List Conversation :=
  s.conversations.drop (s.conversations.length - 5)

/-- `MemoryMCP.get_conversations`. Python's `if topic:` treats both `None`
and the empty string as falsy. -/
def get_conversations (s : MemoryState) (topic : Option String) : Json :=
  match topic with
  | some t =>
    if t ≠ "" then
      Json.obj [("conversations",
        Json.arr ((s.conversations.filter (topicMatches t)).map conversationJson))]
    else Json.obj [("conversations", Json.arr ((lastFive s).map conversationJson))]
  | none => Json.obj [("conversations", Json.arr ((lastFive s).map conversationJson))]

/-! ## Tool registry and dispatcher (`mcp_tools.py`, class `SimpleMCP`) -/

/-- `kwargs.get k` for a keyword-argument bundle. -/
def kwGet (kwargs : List (String × String)) (k : String) : Option String :=
  List.lookup k kwargs

/-- `SimpleMCP.process_tool_call`: string-keyed dispatch over the fixed tool
set. Returns the (possibly updated) memory state and the result payload.
Every branch returns a payload; no exception escapes. -/
def process_tool_call (geocode : String → List Location)
    (forecast : Int → Int → Option CurrentWeather) (now : String)
    (s : MemoryState) (tool_name : String)
    (kwargs : List (String × String)) : MemoryState × Json :=
  if tool_name = "get_weather" then
    let city := (kwGet kwargs "city").getD ""
    let country := (kwGet kwargs "country").getD ""
    (s, (get_weather geocode forecast city country).1)
  else if tool_name = "store_preference" then
    let category := (kwGet kwargs "category").getD ""
    let preference := (kwGet kwargs "preference").getD ""
    store_preference s category preference
  else if tool_name = "get_preferences" then
    (s, get_preferences s (kwGet kwargs "category"))
  else if tool_name = "store_conversation" then
    let topic := (kwGet kwargs "topic").getD ""
    let summary := (kwGet kwargs "summary").getD ""
    store_conversation s topic summary now
  else if tool_name = "get_conversations" then
    (s, get_conversations s (kwGet kwargs "topic"))
  else
    (s, Json.obj [("error", Json.str ("Unknown tool: " ++ tool_name))])

/-- `SimpleMCP.get_available_tools`: the registry's fixed name → description
mapping. -/
def get_available_tools : List (String × String) :=
  [("get_weather", "Get current weather for a city"),
   ("store_preference", "Store a user preference"),
   ("get_preferences", "Get stored user preferences"),
   ("store_conversation", "Store conversation summary"),
   ("get_conversations", "Get conversation history")]

/-! ## Conversation orchestrator (`mcp_demo.py`, class `SmartAI`)

The model endpoint is modelled by two oracle functions: `respond` for the
first chat-completion request of a turn (it receives the transcript and the
advertised function schemas; `Except.error` models a raised exception) and
`respondFinal` for the follow-up request made by `_handle_function_call`
(tool invocation disabled; it receives only the transcript). `json.loads`
of the model's arguments string is abstracted: the parsed keyword bundle is
carried directly in `FunctionCall`, and its serialization is written to the
transcript where the source writes the raw string. -/

/-- The `function_call` field of a model message: a tool name and the parsed
keyword-argument bundle. -/
structure FunctionCall where
  name : String
  arguments : List (String × String)
deriving Repr, DecidableEq

/-- The message object of the model endpoint's first response
(`response.choices[0].message`): optional text content and optional
function-call intent. Python's `if ... message.function_call:` truthiness
check is the `Option` match on `function_call`. -/
structure ModelMessage where
  content : Option String
  function_call : Option FunctionCall
deriving Repr, DecidableEq

mutual

/-- `json.dumps`: JSON serialization of a payload. -/
def serializeJson : Json → String
  | .null => "null"
  | .str s => "\"" ++ s ++ "\""
  | .num n => toString n
  | .arr items => "[" ++ serializeItems items ++ "]"
  | .obj fields => "\x7b" ++ serializeFields fields ++ "\x7d"

/-- Comma-separated serialization of array items. -/
def serializeItems : List Json → String
  | [] => ""
  | [x] => serializeJson x
  | x :: y :: rest => serializeJson x ++ ", " ++ serializeItems (y :: rest)

/-- Comma-separated serialization of object fields. -/
def serializeFields : List (String × Json) → String
  | [] => ""
  | [(k, v)] => "\"" ++ k ++ "\": " ++ serializeJson v
  | (k, v) :: kv :: rest =>
    "\"" ++ k ++ "\": " ++ serializeJson v ++ ", " ++ serializeFields (kv :: rest)

end

/-- The JSON object string carried as `function_call.arguments`. -/
def serializeKwargs (kwargs : List (String × String)) : String :=
  serializeJson (Json.obj (kwargs.map (fun kv => (kv.1, Json.str kv.2))))

/-- Python repr of an optional string: `None` or the quoted string. -/
def pyReprOptStr : Option String → String
  | none => "None"
  | some s => "\x27" ++ s ++ "\x27"

/-- Python repr of an optional function-call object. -/
def pyReprFunctionCall : Option FunctionCall → String
  | none => "None"
  | some fc =>
    "FunctionCall(arguments=\x27" ++ serializeKwargs fc.arguments ++
      "\x27, name=\x27" ++ fc.name ++ "\x27)"

/-- Python `str()` applied to the response message object, as computed by
the `else str(message)` branch on line 88 of `mcp_demo.py`: the printable
representation of the whole object. Only its shape matters to the theorems:
it wraps the content inside the object-constructor text rather than being
the content itself. -/
def strOfMessage (m : ModelMessage) : String :=
  "ChatCompletionMessage(content=" ++ pyReprOptStr m.content ++
    ", function_call=" ++ pyReprFunctionCall m.function_call ++ ")"

/-- One entry of `self.conversation_history`: a user message, an assistant
text reply, an assistant tool-call intent (`content: None` plus a
`function_call` with name and serialized arguments), or a tool result
(`role: "function"` with the tool name and the serialized payload). -/
inductive Entry where
  | user (content : String) : Entry
  | assistantText (content : String) : Entry
  | assistantCall (name : String) (arguments : String) : Entry
  | toolResult (name : String) (content : String) : Entry
deriving Repr, DecidableEq

/-- The orchestrator state: the transcript plus the memory store owned by
the dispatcher. -/
structure ChatState where
  history : List Entry
  memory : MemoryState
deriving Repr, DecidableEq

/-- One advertised function schema (name, description, JSON-schema
parameter object). -/
structure FunctionSchema where
  name : String
  description : String
  parameters : Json
deriving Repr

/-- The `functions` list defined inside `SmartAI.chat` and sent to the model
endpoint on the first request of every turn. -/
def chatFunctions : List FunctionSchema :=
  [{ name := "get_weather",
     description := "Get current weather information for a city",
     parameters := Json.obj
       [("type", Json.str "object"),
        ("properties", Json.obj
          [("city", Json.obj [("type", Json.str "string"),
             ("description", Json.str "The city name")]),
           ("country", Json.obj [("type", Json.str "string"),
             ("description", Json.str "The country (optional)")])]),
        ("required", Json.arr [Json.str "city"])] },
   { name := "store_preference",
     description := "Store a user preference",
     parameters := Json.obj
       [("type", Json.str "object"),
        ("properties", Json.obj
          [("category", Json.obj [("type", Json.str "string"),
             ("description",
              Json.str "Category like \x27travel\x27, \x27food\x27, etc.")]),
           ("preference", Json.obj [("type", Json.str "string"),
             ("description", Json.str "The preference to store")])]),
        ("required", Json.arr [Json.str "category", Json.str "preference"])] },
   { name := "get_preferences",
     description := "Get stored user preferences",
     parameters := Json.obj
       [("type", Json.str "object"),
        ("properties", Json.obj
          [("category", Json.obj [("type", Json.str "string"),
             ("description",
              Json.str "Specific category or all if not specified")])])] }]

/-- `SmartAI._handle_function_call`: dispatch the tool, append the tool-call
intent entry and the tool-result entry (both naming `fc.name`), then request
the final reply; on success append the final assistant text. Returns the new
state and the string returned to the caller. -/
def handle_function_call (geocode : String → List Location)
    (forecast : Int → Int → Option CurrentWeather) (now : String)
    (respondFinal : List Entry → Except String String)
    (st : ChatState) (fc : FunctionCall) : ChatState × String :=
  let res := process_tool_call geocode forecast now st.memory fc.name fc.arguments
  let history₂ := st.history ++
    [Entry.assistantCall fc.name (serializeKwargs fc.arguments),
     Entry.toolResult fc.name (serializeJson res.2)]
  match respondFinal history₂ with
  | .error e =>
    ({ history := history₂, memory := res.1 },
     "Error processing tool result: " ++ e)
  | .ok content =>
    ({ history := history₂ ++ [Entry.assistantText content], memory := res.1 },
     content)

/-- `SmartAI.chat`: one chat turn. Appends the user entry, sends the
transcript plus `chatFunctions` to the model endpoint, and either handles a
function call or appends the text branch's content (which the source
computes as `str(message)`, see `strOfMessage`). -/
def chat (geocode : String → List Location)
    (forecast : Int → Int → Option CurrentWeather) (now : String)
    (respond : List Entry → List FunctionSchema → Except String ModelMessage)
    (respondFinal : List Entry → Except String String)
    (st : ChatState) (message : String) : ChatState × String :=
  let history₁ := st.history ++ [Entry.user message]
  match respond history₁ chatFunctions with
  | .error e => ({ st with history := history₁ }, "Error: " ++ e)
  | .ok m =>
    match m.function_call with
    | some fc =>
      handle_function_call geocode forecast now respondFinal
        { st with history := history₁ } fc
    | none =>
      ({ st with history := history₁ ++ [Entry.assistantText (strOfMessage m)] },
       strOfMessage m)

/-- The C2 transcript invariant: every tool-call-intent entry is immediately
followed by a tool-result entry naming the same tool, and every tool-result
entry is immediately preceded by a tool-call-intent entry naming the same
tool. Together these say that after a tool-call intent exactly one
tool-result entry (naming that tool) follows before any further assistant
text entry. -/
def toolCallInvariant (hist : List Entry) : Prop :=
  (∀ i n a, hist[i]? = some (Entry.assistantCall n a) →
    ∃ c, hist[i + 1]? = some (Entry.toolResult n c)) ∧
  (∀ j n c, hist[j]? = some (Entry.toolResult n c) →
    ∃ k a, j = k + 1 ∧ hist[k]? = some (Entry.assistantCall n a))

/-- Orchestrator states reachable by chat turns from a fresh transcript.
The initial memory document is arbitrary (it is loaded from disk), and
every turn may use fresh oracles (network conditions vary per call). -/
inductive Reachable : ChatState → Prop where
  | init (memory : MemoryState) : Reachable { history := [], memory := memory }
  | step (geocode : String → List Location)
      (forecast : Int → Int → Option CurrentWeather) (now : String)
      (respond : List Entry → List FunctionSchema → Except String ModelMessage)
      (respondFinal : List Entry → Except String String)
      (st : ChatState) (message : String) :
      Reachable st →
      Reachable (chat geocode forecast now respond respondFinal st message).1

/-! ## Association-list lemmas -/

theorem alistLookup_alistSet_self (m : List (String × List String))
    (k : String) (v : List String) :
    alistLookup (alistSet m k v) k = some v := by
  induction m with
  | nil => simp [alistSet, alistLookup]
  | cons kv rest ih =>
    obtain ⟨k₀, v₀⟩ := kv
    by_cases h : k₀ = k
    · simp [alistSet, alistLookup, h]
    · simp [alistSet, alistLookup, h, ih]

theorem alistSet_alistSet_self (m : List (String × List String))
    (k : String) (v w : List String) :
    alistSet (alistSet m k v) k w = alistSet m k w := by
  induction m with
  | nil => simp [alistSet]
  | cons kv rest ih =>
    obtain ⟨k₀, v₀⟩ := kv
    by_cases h : k₀ = k
    · simp [alistSet, h]
    · simp [alistSet, h, ih]

theorem lookup_eq_none_of_not_mem_keys (l : List (Int × String)) (code : Int)
    (h : code ∉ l.map Prod.fst) : l.lookup code = none := by
  induction l with
  | nil => rfl
  | cons kv rest ih =>
    obtain ⟨k, v⟩ := kv
    simp only [List.map_cons, List.mem_cons] at h
    push_neg at h
    have hbe : (code == k) = false := by simp [h.1]
    simp [List.lookup, hbe, ih h.2]

/-! ## Claims about the memory store, dispatcher and weather tool -/

/-- C3: `store_preference` is idempotent: starting from a store state whose
`category` list holds `preference` at most once, both of two identical calls
return the payload `{status: "stored", category, preference}`, the second
call does not change the state, and afterwards the category's list holds the
preference exactly once. -/
theorem store_preference_idempotent (s : MemoryState) (c p : String)
    (h : (prefListOf s c).count p ≤ 1) :
    (store_preference s c p).2 =
      Json.obj [("status", Json.str "stored"), ("category", Json.str c),
                ("preference", Json.str p)] ∧
    (store_preference (store_preference s c p).1 c p).2 =
      Json.obj [("status", Json.str "stored"), ("category", Json.str c),
                ("preference", Json.str p)] ∧
    (store_preference (store_preference s c p).1 c p).1 =
      (store_preference s c p).1 ∧
    (prefListOf (store_preference (store_preference s c p).1 c p).1 c).count p
      = 1 := by
  have hfst : ∀ t : MemoryState, (store_preference t c p).1.preferences =
      alistSet t.preferences c
        (if p ∈ prefListOf t c then prefListOf t c else prefListOf t c ++ [p]) := by
    intro t; simp [store_preference]
  have hlist : ∀ t : MemoryState, prefListOf (store_preference t c p).1 c =
      (if p ∈ prefListOf t c then prefListOf t c else prefListOf t c ++ [p]) := by
    intro t; simp [prefListOf, hfst t, alistLookup_alistSet_self]
  have hmem : p ∈ prefListOf (store_preference s c p).1 c := by
    rw [hlist s]
    by_cases hp : p ∈ prefListOf s c
    · simp [hp]
    · simp [hp]
  refine ⟨by simp [store_preference], by simp [store_preference], ?_, ?_⟩
  · have hpref : (store_preference (store_preference s c p).1 c p).1.preferences =
        (store_preference s c p).1.preferences := by
      rw [hfst (store_preference s c p).1, if_pos hmem, hlist s, hfst s]
      exact alistSet_alistSet_self s.preferences c _ _
    have hconv : (store_preference (store_preference s c p).1 c p).1.conversations =
        (store_preference s c p).1.conversations := by
      simp [store_preference]
    exact MemoryState.ext hpref hconv
  · have h2 : prefListOf (store_preference (store_preference s c p).1 c p).1 c =
        prefListOf (store_preference s c p).1 c := by
      rw [hlist (store_preference s c p).1, if_pos hmem]
    rw [h2, hlist s]
    by_cases hp : p ∈ prefListOf s c
    · rw [if_pos hp]
      exact Nat.le_antisymm h (List.count_pos_iff.mpr hp)
    · rw [if_neg hp]
      simp [List.count_append, List.count_eq_zero.mpr hp]

/-- C3 witness: the idempotence theorem applied at the empty store with
category `"travel"` and preference `"museums"`. -/
theorem store_preference_idempotent_witness :
    (prefListOf ⟨[], []⟩ "travel").count "museums" ≤ 1 ∧
    ((store_preference ⟨[], []⟩ "travel" "museums").2 =
      Json.obj [("status", Json.str "stored"), ("category", Json.str "travel"),
                ("preference", Json.str "museums")] ∧
    (store_preference (store_preference ⟨[], []⟩ "travel" "museums").1
        "travel" "museums").2 =
      Json.obj [("status", Json.str "stored"), ("category", Json.str "travel"),
                ("preference", Json.str "museums")] ∧
    (store_preference (store_preference ⟨[], []⟩ "travel" "museums").1
        "travel" "museums").1 =
      (store_preference ⟨[], []⟩ "travel" "museums").1 ∧
    (prefListOf (store_preference (store_preference ⟨[], []⟩ "travel" "museums").1
        "travel" "museums").1 "travel").count "museums" = 1) :=
  ⟨by decide, store_preference_idempotent ⟨[], []⟩ "travel" "museums" (by decide)⟩

/-- A small concrete store state used by witnesses. -/
def sampleStore : MemoryState :=
  { preferences := [("travel", ["museums", "local food"])],
    conversations :=
      [⟨"Weather in Tokyo", "asked about Tokyo weather", "2024-01-01T10:00:00"⟩,
       ⟨"Food preferences", "likes local food", "2024-01-02T10:00:00"⟩] }

/-- C4: with a non-empty topic, `get_conversations` returns exactly the
stored entries whose topic contains the given string case-insensitively
(all of them, no limit); with no topic it returns the most recent five
entries (at most five), a suffix of the log in original order. -/
theorem get_conversations_spec (s : MemoryState) (t : String) (ht : t ≠ "") :
    (∃ l : List Conversation,
      get_conversations s (some t) =
        Json.obj [("conversations", Json.arr (l.map conversationJson))] ∧
      List.Sublist l s.conversations ∧
      (∀ c : Conversation, c ∈ l ↔
        c ∈ s.conversations ∧ t.toLower.data <:+: c.topic.toLower.data)) ∧
    (∃ l : List Conversation,
      get_conversations s none =
        Json.obj [("conversations", Json.arr (l.map conversationJson))] ∧
      List.IsSuffix l s.conversations ∧
      l.length = min 5 s.conversations.length) := by
  constructor
  · refine ⟨s.conversations.filter (topicMatches t),
      by simp [get_conversations, ht], List.filter_sublist _, ?_⟩
    intro c
    rw [List.mem_filter]
    simp [topicMatches]
  · exact ⟨lastFive s, rfl, List.drop_suffix _ _,
      by simp [lastFive]; omega⟩

/-- C4 witness: the `get_conversations` theorem applied at a concrete
two-entry store and the topic fragment `"tok"`. -/
theorem get_conversations_spec_witness :
    ("tok" : String) ≠ "" ∧
    ((∃ l : List Conversation,
      get_conversations sampleStore (some "tok") =
        Json.obj [("conversations", Json.arr (l.map conversationJson))] ∧
      List.Sublist l sampleStore.conversations ∧
      (∀ c : Conversation, c ∈ l ↔
        c ∈ sampleStore.conversations ∧
          ("tok" : String).toLower.data <:+: c.topic.toLower.data)) ∧
    (∃ l : List Conversation,
      get_conversations sampleStore none =
        Json.obj [("conversations", Json.arr (l.map conversationJson))] ∧
      List.IsSuffix l sampleStore.conversations ∧
      l.length = min 5 sampleStore.conversations.length)) :=
  ⟨by decide, get_conversations_spec sampleStore "tok" (by decide)⟩

/-- C5: with a non-empty category, `get_preferences` returns the object
mapping that category to exactly its stored sequence, an empty list for an
unknown category, and never the error-payload shape; with no category it
returns the full preferences mapping. -/
theorem get_preferences_spec (s : MemoryState) (c : String) (hc : c ≠ "") :
    get_preferences s (some c) =
      Json.obj [(c, Json.arr ((prefListOf s c).map Json.str))] ∧
    (alistLookup s.preferences c = none →
      get_preferences s (some c) = Json.obj [(c, Json.arr [])]) ∧
    (∀ msg : String,
      get_preferences s (some c) ≠ Json.obj [("error", Json.str msg)]) ∧
    get_preferences s none = preferencesJson s := by
  refine ⟨by simp [get_preferences, hc], ?_, ?_, rfl⟩
  · intro hnone
    simp [get_preferences, hc, prefListOf, hnone]
  · intro msg hEq
    simp [get_preferences, hc] at hEq

/-- C5 witness: the `get_preferences` theorem applied at a concrete store
and the unknown category `"sports"`. -/
theorem get_preferences_spec_witness :
    ("sports" : String) ≠ "" ∧
    (get_preferences sampleStore (some "sports") =
      Json.obj [("sports", Json.arr ((prefListOf sampleStore "sports").map Json.str))] ∧
    (alistLookup sampleStore.preferences "sports" = none →
      get_preferences sampleStore (some "sports") =
        Json.obj [("sports", Json.arr [])]) ∧
    (∀ msg : String,
      get_preferences sampleStore (some "sports") ≠
        Json.obj [("error", Json.str msg)]) ∧
    get_preferences sampleStore none = preferencesJson sampleStore) :=
  ⟨by decide, get_preferences_spec sampleStore "sports" (by decide)⟩

/-- C6: dispatching any tool name outside the registry's fixed five-name set
returns the structured payload `{error: "Unknown tool: <name>"}` (a payload
carrying an `error` key) and leaves the store untouched; the embedded
dispatcher is a total function, so no exception is raised. -/
theorem process_tool_call_unknown_tool (geocode : String → List Location)
    (forecast : Int → Int → Option CurrentWeather) (now : String)
    (s : MemoryState) (tool_name : String) (kwargs : List (String × String))
    (h : tool_name ∉ ["get_weather", "store_preference", "get_preferences",
      "store_conversation", "get_conversations"]) :
    process_tool_call geocode forecast now s tool_name kwargs =
      (s, Json.obj [("error", Json.str ("Unknown tool: " ++ tool_name))]) ∧
    ((process_tool_call geocode forecast now s tool_name kwargs).2).hasKey
      "error" = true := by
  simp only [List.mem_cons, List.not_mem_nil, or_false] at h
  push_neg at h
  obtain ⟨h1, h2, h3, h4, h5⟩ := h
  refine ⟨by simp [process_tool_call, h1, h2, h3, h4, h5], ?_⟩
  simp [process_tool_call, h1, h2, h3, h4, h5, Json.hasKey]

/-- C6 witness: the unknown-tool theorem applied to the unregistered name
`"send_email"` on an empty store. -/
theorem process_tool_call_unknown_tool_witness :
    ("send_email" : String) ∉ ["get_weather", "store_preference",
      "get_preferences", "store_conversation", "get_conversations"] ∧
    (process_tool_call (fun _ => []) (fun _ _ => none) "" ⟨[], []⟩
        "send_email" [] =
      (⟨[], []⟩, Json.obj [("error", Json.str ("Unknown tool: " ++ "send_email"))]) ∧
    ((process_tool_call (fun _ => []) (fun _ _ => none) "" ⟨[], []⟩
        "send_email" []).2).hasKey "error" = true) :=
  ⟨by decide, process_tool_call_unknown_tool _ _ _ _ _ _ (by decide)⟩

/-- C7: when the geocoding lookup yields no results, `get_weather` returns
`{error: "City '<city>' not found"}` and invokes the forecast dependency
zero times. -/
theorem get_weather_city_not_found (geocode : String → List Location)
    (forecast : Int → Int → Option CurrentWeather) (city country : String)
    (h : geocode city = []) :
    get_weather geocode forecast city country =
      (Json.obj [("error", Json.str ("City \x27" ++ city ++ "\x27 not found"))],
       0) := by
  simp [get_weather, h]

/-- C7 witness: the city-not-found theorem applied to a geocoder that knows
no cities, with city `"Atlantis"`. -/
theorem get_weather_city_not_found_witness :
    (fun _ : String => ([] : List Location)) "Atlantis" = [] ∧
    get_weather (fun _ => []) (fun _ _ => none) "Atlantis" "" =
      (Json.obj [("error",
        Json.str ("City \x27" ++ "Atlantis" ++ "\x27 not found"))], 0) :=
  ⟨rfl, get_weather_city_not_found _ _ _ _ rfl⟩

/-- C9: the weather-code table maps 95 to `"Thunderstorm"`, 2 to
`"Partly cloudy"`, and every code outside the table to
`"Unknown conditions"`. -/
theorem get_weather_description_table (code : Int)
    (h : code ∉ weather_codes.map Prod.fst) :
    get_weather_description 95 = "Thunderstorm" ∧
    get_weather_description 2 = "Partly cloudy" ∧
    get_weather_description code = "Unknown conditions" := by
  refine ⟨by decide, by decide, ?_⟩
  rw [get_weather_description, lookup_eq_none_of_not_mem_keys _ _ h]
  rfl

/-- C9 witness: the table theorem applied at the out-of-table code 999. -/
theorem get_weather_description_table_witness :
    (999 : Int) ∉ weather_codes.map Prod.fst ∧
    (get_weather_description 95 = "Thunderstorm" ∧
     get_weather_description 2 = "Partly cloudy" ∧
     get_weather_description 999 = "Unknown conditions") :=
  ⟨by decide, get_weather_description_table 999 (by decide)⟩

/-- C10: passing the empty string is Python-falsy, so
`get_preferences s (some "")` returns the full preferences mapping exactly
as `get_preferences s none` does, and `get_conversations s (some "")`
returns the most-recent-five view exactly as `get_conversations s none`
does (not the empty-substring filter). -/
theorem empty_category_topic_behave_as_unset (s : MemoryState) :
    get_preferences s (some "") = get_preferences s none ∧
    get_preferences s (some "") = preferencesJson s ∧
    get_conversations s (some "") = get_conversations s none ∧
    get_conversations s (some "") =
      Json.obj [("conversations",
        Json.arr ((lastFive s).map conversationJson))] :=
  ⟨by simp [get_preferences], by simp [get_preferences],
   by simp [get_conversations], by simp [get_conversations]⟩

/-! ## Transcript-invariant lemmas -/

theorem toolCallInvariant_nil : toolCallInvariant [] := by
  constructor
  · intro i n a h
    simp at h
  · intro j n c h
    simp at h

theorem toolCallInvariant_append (h l : List Entry)
    (hh : toolCallInvariant h) (hl : toolCallInvariant l) :
    toolCallInvariant (h ++ l) := by
  obtain ⟨hh₁, hh₂⟩ := hh
  obtain ⟨hl₁, hl₂⟩ := hl
  constructor
  · intro i n a hi
    by_cases hlt : i < h.length
    · rw [List.getElem?_append_left hlt] at hi
      obtain ⟨c, hc⟩ := hh₁ i n a hi
      have hlt₂ : i + 1 < h.length := (List.getElem?_eq_some.mp hc).1
      exact ⟨c, by rw [List.getElem?_append_left hlt₂]; exact hc⟩
    · push_neg at hlt
      rw [List.getElem?_append_right hlt] at hi
      obtain ⟨c, hc⟩ := hl₁ _ n a hi
      refine ⟨c, ?_⟩
      rw [List.getElem?_append_right (by omega : h.length ≤ i + 1),
        (by omega : i + 1 - h.length = (i - h.length) + 1)]
      exact hc
  · intro j n c hj
    by_cases hlt : j < h.length
    · rw [List.getElem?_append_left hlt] at hj
      obtain ⟨k, a, hk₁, hk₂⟩ := hh₂ j n c hj
      have hklt : k < h.length := by omega
      exact ⟨k, a, hk₁, by rw [List.getElem?_append_left hklt]; exact hk₂⟩
    · push_neg at hlt
      rw [List.getElem?_append_right hlt] at hj
      obtain ⟨k, a, hk₁, hk₂⟩ := hl₂ _ n c hj
      refine ⟨h.length + k, a, by omega, ?_⟩
      rw [List.getElem?_append_right (by omega : h.length ≤ h.length + k),
        (by omega : h.length + k - h.length = k)]
      exact hk₂

theorem toolCallInvariant_user (msg : String) :
    toolCallInvariant [Entry.user msg] := by
  constructor
  · intro i n a hi
    match i with
    | 0 => simp at hi
    | i + 1 => simp at hi
  · intro j n c hj
    match j with
    | 0 => simp at hj
    | j + 1 => simp at hj

theorem toolCallInvariant_text (t : String) :
    toolCallInvariant [Entry.assistantText t] := by
  constructor
  · intro i n a hi
    match i with
    | 0 => simp at hi
    | i + 1 => simp at hi
  · intro j n c hj
    match j with
    | 0 => simp at hj
    | j + 1 => simp at hj

theorem toolCallInvariant_call_pair (n a c : String) :
    toolCallInvariant [Entry.assistantCall n a, Entry.toolResult n c] := by
  constructor
  · intro i m a₀ hi
    match i with
    | 0 =>
      simp only [List.getElem?_cons_zero, Option.some.injEq,
        Entry.assistantCall.injEq] at hi
      exact ⟨c, by simp [hi.1]⟩
    | 1 => simp at hi
    | i + 2 => simp at hi
  · intro j m c₀ hj
    match j with
    | 0 => simp at hj
    | 1 =>
      simp only [List.getElem?_cons_succ, List.getElem?_cons_zero,
        Option.some.injEq, Entry.toolResult.injEq] at hj
      exact ⟨0, a, rfl, by simp [hj.1]⟩
    | j + 2 => simp at hj

theorem handle_function_call_invariant (geocode : String → List Location)
    (forecast : Int → Int → Option CurrentWeather) (now : String)
    (respondFinal : List Entry → Except String String)
    (st : ChatState) (fc : FunctionCall)
    (h : toolCallInvariant st.history) :
    toolCallInvariant
      (handle_function_call geocode forecast now respondFinal st fc).1.history := by
  have hpair : toolCallInvariant (st.history ++
      [Entry.assistantCall fc.name (serializeKwargs fc.arguments),
       Entry.toolResult fc.name (serializeJson
         (process_tool_call geocode forecast now st.memory fc.name
           fc.arguments).2)]) :=
    toolCallInvariant_append _ _ h (toolCallInvariant_call_pair _ _ _)
  rcases hrf : respondFinal (st.history ++
      [Entry.assistantCall fc.name (serializeKwargs fc.arguments),
       Entry.toolResult fc.name (serializeJson
         (process_tool_call geocode forecast now st.memory fc.name
           fc.arguments).2)]) with e | content
  · simp only [handle_function_call, hrf]
    exact hpair
  · simp only [handle_function_call, hrf]
    exact toolCallInvariant_append _ _ hpair (toolCallInvariant_text _)

/-- C2: in every orchestrator state reachable by a sequence of chat turns,
whenever a tool-call-intent entry was appended to the transcript, exactly
one tool-result entry naming the same tool sits immediately after it, before
any further assistant text entry. -/
theorem transcript_tool_call_invariant (st : ChatState) (h : Reachable st) :
    toolCallInvariant st.history := by
  induction h with
  | init memory => exact toolCallInvariant_nil
  | step geocode forecast now respond respondFinal st' message hst ih =>
    have ih₁ : toolCallInvariant (st'.history ++ [Entry.user message]) :=
      toolCallInvariant_append _ _ ih (toolCallInvariant_user message)
    rcases hr : respond (st'.history ++ [Entry.user message]) chatFunctions
      with e | m
    · simpa only [chat, hr] using ih₁
    · rcases hfc : m.function_call with _ | fc
      · simp only [chat, hr, hfc]
        exact toolCallInvariant_append _ _ ih₁ (toolCallInvariant_text _)
      · simp only [chat, hr, hfc]
        exact handle_function_call_invariant _ _ _ _ _ _ ih₁

/-- C2 witness: the invariant theorem applied to the state reached by one
chat turn in which the model requests `get_preferences` and the follow-up
reply succeeds. -/
theorem transcript_tool_call_invariant_witness :
    toolCallInvariant (chat (fun _ => []) (fun _ _ => none) ""
      (fun _ _ => Except.ok ⟨none, some ⟨"get_preferences", []⟩⟩)
      (fun _ => Except.ok "Here are your preferences.")
      { history := [], memory := ⟨[], []⟩ } "what do I like?").1.history :=
  transcript_tool_call_invariant _
    (Reachable.step _ _ _ _ _ _ _ (Reachable.init _))

/-- C1 counterexample: the function list advertised by `SmartAI.chat` does
not equal the tool registry's full schema list — the registry names five
tools, the orchestrator advertises only three. -/
theorem advertised_functions_ne_registry :
    chatFunctions.map FunctionSchema.name ≠
      get_available_tools.map Prod.fst := by
  decide

/-- C1 amended: in the RequestingReply step the orchestrator advertises
exactly the three schemas `get_weather`, `store_preference` and
`get_preferences` — a strict subset of the registry's five-tool set;
`store_conversation` and `get_conversations` are dispatchable but never
advertised. -/
theorem advertised_functions_subset_registry :
    chatFunctions.map FunctionSchema.name =
      ["get_weather", "store_preference", "get_preferences"] ∧
    (∀ n ∈ chatFunctions.map FunctionSchema.name,
      n ∈ get_available_tools.map Prod.fst) ∧
    "store_conversation" ∈ get_available_tools.map Prod.fst ∧
    "store_conversation" ∉ chatFunctions.map FunctionSchema.name ∧
    "get_conversations" ∈ get_available_tools.map Prod.fst ∧
    "get_conversations" ∉ chatFunctions.map FunctionSchema.name := by
  refine ⟨by decide, by decide, by decide, by decide, by decide, by decide⟩

/-- C8 (code bug): on a plain-text model reply, line 88 of `mcp_demo.py`
computes `content = message.content if isinstance(message, dict) else
str(message)`; the response message is an object of the client library and
never a dict (and a real dict would not even support the attribute access of
the first branch), so the orchestrator appends and returns `str(message)` —
the printable representation of the whole message object — instead of the
model's text content. At the failing input, a message whose content is
`"Hello"` with no function call: the returned string and the appended
assistant entry both carry `strOfMessage` of the message, which differs from
the text content `"Hello"` that the claim (and the surrounding code's
intent) requires. -/
theorem chat_text_reply_returns_object_repr :
    (chat (fun _ => []) (fun _ _ => none) ""
        (fun _ _ => Except.ok ⟨some "Hello", none⟩)
        (fun _ => Except.error "unused")
        { history := [], memory := ⟨[], []⟩ } "hi").2 =
      strOfMessage ⟨some "Hello", none⟩ ∧
    (chat (fun _ => []) (fun _ _ => none) ""
        (fun _ _ => Except.ok ⟨some "Hello", none⟩)
        (fun _ => Except.error "unused")
        { history := [], memory := ⟨[], []⟩ } "hi").1.history =
      [Entry.user "hi",
       Entry.assistantText (strOfMessage ⟨some "Hello", none⟩)] ∧
    strOfMessage ⟨some "Hello", none⟩ ≠ "Hello" :=
  ⟨rfl, rfl, by decide⟩

end MCP
